import Mathlib

/-!
Verification of the live departure detection engine of the train-departure
notification bot (source file appV11+discordv2uiview.py).

Times are modelled as integers counting seconds; the Python code compares
datetime differences against timedelta constants, which is the same order
structure.  Fallible operations (network fetches, timestamp parsing,
message dispatch) are modelled with Option and Except: a raised exception
in the Python coroutine corresponds to the Except.error branch, which
propagates, while a handled failure (non-success HTTP status, parse error
caught by try/except) corresponds to the explicit code path taken there.
-/

namespace TrainBot

/-- Python str.lower(), as a character-wise map. -/
def lowerStr (s : String) : String := String.mk (s.data.map Char.toLower)

/-- Python str.upper(), as a character-wise map. -/
def upperStr (s : String) : String := String.mk (s.data.map Char.toUpper)

/-- Lexicographic comparison of character lists by code point, the order
Python uses to compare and sort strings. -/
def charListLe : List Char → List Char → Bool
  | [], _ => true
  | _ :: _, [] => false
  | a :: as, b :: bs =>
    if a < b then true
    else if b < a then false
    else charListLe as bs

/-- Lexicographic string comparison by code point. -/
def strLe (a b : String) : Bool := charListLe a.data b.data

/-- Entry of the ANNOUNCED_TRAINS dedup ledger: value stored at line 630,
`{"timestamp": now.timestamp(), "departure_time": departure_time.timestamp()}`. -/
structure AnnEntry where
  timestamp : Int
  departure_time : Int
deriving DecidableEq

/-- Window filter of the poller, lines 622-624: the candidate is skipped when
`now - departure_time > timedelta(minutes=0.5)` (30 seconds) and when
`departure_time - now > timedelta(seconds=15)`; otherwise it is admitted. -/
def window_admits (now departure_time : Int) : Bool :=
  if now - departure_time > 30 then false
  else if departure_time - now > 15 then false
  else true

/-- Membership test `channel_journey_id in ANNOUNCED_TRAINS` (line 627),
on the ledger modelled as an association list with unique keys. -/
def containsKey (ledger : List (String × AnnEntry)) (k : String) : Bool :=
  ledger.any (fun e => e.1 == k)

/-- The check-and-insert of lines 627-633, named try_claim as in the design
description: if the key is already present the claim fails and the ledger is
unchanged; otherwise the entry is inserted and the claim succeeds. -/
def try_claim (ledger : List (String × AnnEntry)) (channel_id journey_id : String)
    (now departure_time : Int) : Bool × List (String × AnnEntry) :=
  let key := channel_id ++ ":" ++ journey_id
  if containsKey ledger key then (false, ledger)
  else (true, (key, ⟨now, departure_time⟩) :: ledger)

/-- Eviction pass clean_announced_trains, lines 184-204: collects every entry
whose stored timestamp is more than 2 hours (7200 seconds) old, removes those
entries, and reports how many were removed (the printed count
`len(to_remove)`, modelled as the second component of the result). -/
def clean_announced_trains (now : Int) (ledger : List (String × AnnEntry)) :
    List (String × AnnEntry) × Nat :=
  let to_remove := ledger.filter (fun e => decide (now - e.2.timestamp > 7200))
  (ledger.filter (fun e => !decide (now - e.2.timestamp > 7200)), to_remove.length)

/-- Python f-string rendering of a possibly missing value: `None` renders as
the string "None". -/
def displayOpt : Option String → String
  | some s => s
  | none => "None"

/-- The `product` sub-record of a departure as read by the poller. -/
structure Product where
  number : Option String
  longCategoryName : Option String
  operatorName : Option String
deriving DecidableEq

/-- A raw departure record as read by the poller (only the fields the code
touches). `routeStations` holds the optional mediumName of each stop. -/
structure Departure where
  product : Product
  plannedDateTime : Option String
  journeyId : Option String
  direction : Option String
  routeStations : List (Option String)
deriving DecidableEq

/-- Fallback journey key, line 612:
`f"{category}:{operator}:{train_number}:{departure_str}"`. -/
def synth_journey_id (category operator_name number departure_str : String) : String :=
  category ++ ":" ++ operator_name ++ ":" ++ number ++ ":" ++ departure_str

/-- Journey key computation, lines 608-612: use the feed-supplied journeyId
when present and non-empty (`train.get('journeyId', '')` followed by a
truthiness test), otherwise synthesize from category, operator, number and
planned departure string (missing number or timestamp renders as "None" as in
a Python f-string). -/
def journey_id_of (train : Departure) : String :=
  let jid := train.journeyId.getD ""
  if jid = "" then
    synth_journey_id (train.product.longCategoryName.getD "")
      (train.product.operatorName.getD "")
      (displayOpt train.product.number) (displayOpt train.plannedDateTime)
  else jid

/-- Dedup key, line 614: `f"{channel_id}:{journey_id}"`. -/
def channel_journey_id (channel_id : String) (train : Departure) : String :=
  channel_id ++ ":" ++ journey_id_of train

/-- A configured per-train alert subscription (`alerts` entries of a channel
config): train number, station code, subscribing user. -/
structure Alert where
  train_number : String
  station : String
  user_id : String
deriving DecidableEq

/-- A configured train-type notification subscription
(`train_type_notifications` entries of a channel config). -/
structure TypeNotification where
  train_type : String
  user_id : String
deriving DecidableEq

/-- Match test of line 686:
`notification["train_type"].upper() == train_type.upper()`. -/
def typeNotificationMatches (n : TypeNotification) (train_type : String) : Bool :=
  upperStr n.train_type == upperStr train_type

/-- Match test of line 690: `alert["train_number"] == train_number and
alert["station"].upper() == station.upper()`.  The candidate number is
optional: a missing number compares unequal to any configured string, as
`None == "123"` is false in Python. -/
def alertMatches (a : Alert) (train_number : Option String) (station : String) : Bool :=
  (some a.train_number == train_number) && (upperStr a.station == upperStr station)

/-- Recipients mentioned for one announced candidate, lines 685-691: one
mention per matching type-notification followed by one mention per matching
alert; the two lists are scanned independently and nothing is deduplicated. -/
def mentionsFor (tns : List TypeNotification) (alerts : List Alert)
    (train_type : String) (train_number : Option String) (station : String) :
    List String :=
  (tns.filter (fun n => typeNotificationMatches n train_type)).map TypeNotification.user_id
    ++ (alerts.filter (fun a => alertMatches a train_number station)).map Alert.user_id

/-- One element of `materieeldelen` in the train-detail response. -/
structure Materieeldeel where
  afbeelding : Option String
  faciliteiten : List String
deriving DecidableEq

/-- Body of a successful train-detail (virtual-train-api) response, with the
fields the code reads. -/
structure TrainInfo where
  type : Option String
  crowd : Option String
  lengteInMeters : Option Int
  materieeldelen : List Materieeldeel
deriving DecidableEq

/-- Truthiness filter of line 648: `[m.get("afbeelding") for m in materieeldelen
if m.get("afbeelding")]` keeps only present, non-empty image references. -/
def imageOf (m : Materieeldeel) : Option String :=
  match m.afbeelding with
  | some s => if s = "" then none else some s
  | none => none

/-- The structured data carried by one departure announcement: exactly the
keyword arguments passed to send_discord_message_with_image at lines 668-683. -/
structure AnnouncementData where
  message : String
  title : String
  station : String
  departure_time : String
  train_number : Option String
  train_type : String
  crowd_info : String
  train_length : Int
  facilities : List String
  bakken_count : Nat
  route_stations : List String
  has_image : Bool
  operator_name : String
deriving DecidableEq

/-- Observable events of one tick: a departure announcement embed, or a
mention message sent to a subscribed user. -/
inductive Event where
  | departure (channel_id station : String) (data : AnnouncementData)
  | mention (channel_id user_id : String)
deriving DecidableEq

/-- External collaborators of the poller: the timestamp parser (strptime with
format "%Y-%m-%dT%H:%M:%S%z", returning none when it raises), the departures
fetch per station code, the train-detail fetch per train number, and the
message dispatch per dedup key.  For the two fetches and the dispatch an
Except.error models a raised transport-level exception, while an ok result
carries the HTTP status (and parsed body) that the code inspects itself. -/
structure Env where
  parseTime : String → Option Int
  fetch : String → Except Unit (Nat × List Departure)
  enrich : String → Except Unit (Nat × TrainInfo)
  dispatch : String → Except Unit Unit

/-- Mutable process state touched by one tick: the ANNOUNCED_TRAINS ledger and
the two observation caches TRAIN_NUMBERS_CACHE and TRAIN_TYPES_CACHE. -/
structure TickState where
  announced : List (String × AnnEntry)
  train_numbers : List String
  train_types : List String
deriving DecidableEq

/-- Set insertion for the observation caches (Python set.add). -/
def addToSet (l : List String) (s : String) : List String :=
  if s ∈ l then l else s :: l

/-- Lines 605-606: `if train_number: TRAIN_NUMBERS_CACHE.add(str(train_number))`;
the empty string and a missing number are falsy and are not recorded. -/
def cacheNumber (st : TickState) (n : Option String) : TickState :=
  match n with
  | some s => if s ≠ "" then { st with train_numbers := addToSet st.train_numbers s } else st
  | none => st

/-- Tail of the per-candidate path after enrichment, lines 662-691: build the
announcement payload, send it together with the subscription mentions (one
dispatch outcome covers the whole send block; its error branch models any of
those sends raising), and report the emitted events. -/
def emitCandidate (env : Env) (channel_id station : String)
    (alerts : List Alert) (tns : List TypeNotification) (st : TickState)
    (train : Departure) (key train_type crowd : String) (train_length : Int)
    (images facilities : List String) (bakken_count : Nat) :
    TickState × Except Unit (List Event) :=
  let route_stations := train.routeStations.map (fun r => r.getD "Unknown")
  let direction := train.direction.getD "Unknown"
  let operator_name := train.product.operatorName.getD "Unknown"
  let ann : AnnouncementData :=
    { message := "Train to " ++ direction ++ " from " ++ station ++ " has departed."
      title := "Departure from " ++ station
      station := station
      departure_time := displayOpt train.plannedDateTime
      train_number := train.product.number
      train_type := train_type
      crowd_info := crowd
      train_length := train_length
      facilities := facilities
      bakken_count := bakken_count
      route_stations := route_stations
      has_image := images ≠ []
      operator_name := operator_name }
  match env.dispatch key with
  | .error e => (st, .error e)
  | .ok _ =>
    (st, .ok (Event.departure channel_id station ann ::
      (mentionsFor tns alerts train_type train.product.number station).map
        (Event.mention channel_id)))

/-- Per-candidate body of the poll loop, lines 601-691: record the train
number, compute the dedup key, parse the planned departure time (skip the
candidate when parsing fails), apply the window filter, apply the dedup check,
insert the ledger entry, run the enrichment fetch (neutral defaults on a
non-success status, propagated error on a raised exception), and emit the
announcement and mentions. -/
def processCandidate (env : Env) (channel_id station : String) (now : Int)
    (alerts : List Alert) (tns : List TypeNotification)
    (st : TickState) (train : Departure) : TickState × Except Unit (List Event) :=
  let st1 := cacheNumber st train.product.number
  let key := channel_journey_id channel_id train
  match train.plannedDateTime.bind env.parseTime with
  | none => (st1, .ok [])
  | some departure_time =>
    if now - departure_time > 30 then (st1, .ok [])
    else if departure_time - now > 15 then (st1, .ok [])
    else if containsKey st1.announced key then (st1, .ok [])
    else
      let st2 := { st1 with announced := (key, ⟨now, departure_time⟩) :: st1.announced }
      match env.enrich (displayOpt train.product.number) with
      | .error e => (st2, .error e)
      | .ok (status, info) =>
        if status == 200 then
          let train_type := info.type.getD "Unknown"
          let st3 :=
            if train_type ≠ "" ∧ train_type ≠ "Unknown" then
              { st2 with train_types := addToSet st2.train_types train_type }
            else st2
          emitCandidate env channel_id station alerts tns st3 train key train_type
            (info.crowd.getD "Unknown") (info.lengteInMeters.getD 0)
            (info.materieeldelen.filterMap imageOf)
            (info.materieeldelen.foldl (fun acc m => acc ++ m.faciliteiten) [])
            info.materieeldelen.length
        else
          emitCandidate env channel_id station alerts tns st2 train key
            "Unknown" "Unknown" 0 [] [] 1

/-- Candidate loop over the departures of one station response (line 601);
an error from a candidate propagates, keeping the state mutations already
performed, exactly as a raised exception leaves the Python globals. -/
def processDepartures (env : Env) (channel_id station : String) (now : Int)
    (alerts : List Alert) (tns : List TypeNotification) :
    TickState → List Departure → TickState × Except Unit (List Event)
  | st, [] => (st, .ok [])
  | st, d :: ds =>
    match processCandidate env channel_id station now alerts tns st d with
    | (st1, .error e) => (st1, .error e)
    | (st1, .ok evs) =>
      match processDepartures env channel_id station now alerts tns st1 ds with
      | (st2, .error e) => (st2, .error e)
      | (st2, .ok evs2) => (st2, .ok (evs ++ evs2))

/-- One station of the station loop, lines 594-601: a raised transport error
propagates; a non-success status is printed and the station is skipped;
otherwise the response departures are processed. -/
def processStation (env : Env) (channel_id : String) (now : Int)
    (alerts : List Alert) (tns : List TypeNotification)
    (st : TickState) (station : String) : TickState × Except Unit (List Event) :=
  match env.fetch station with
  | .error e => (st, .error e)
  | .ok (status, deps) =>
    if status ≠ 200 then (st, .ok [])
    else processDepartures env channel_id station now alerts tns st deps

/-- Station loop of one channel (line 593), with error propagation. -/
def processStations (env : Env) (channel_id : String) (now : Int)
    (alerts : List Alert) (tns : List TypeNotification) :
    TickState → List String → TickState × Except Unit (List Event)
  | st, [] => (st, .ok [])
  | st, s :: ss =>
    match processStation env channel_id now alerts tns st s with
    | (st1, .error e) => (st1, .error e)
    | (st1, .ok evs) =>
      match processStations env channel_id now alerts tns st1 ss with
      | (st2, .error e) => (st2, .error e)
      | (st2, .ok evs2) => (st2, .ok (evs ++ evs2))

/-- One channel configuration as read from config.json, plus whether
bot.get_channel found the channel object. -/
structure ChannelConfig where
  channel_id : String
  channel_found : Bool
  stations : List String
  alerts : List Alert
  train_type_notifications : List TypeNotification
deriving DecidableEq

/-- One channel of the channel loop, lines 579-593: a missing channel object
or an empty station list is skipped. -/
def processChannel (env : Env) (now : Int) (st : TickState) (cfg : ChannelConfig) :
    TickState × Except Unit (List Event) :=
  if !cfg.channel_found then (st, .ok [])
  else if cfg.stations = [] then (st, .ok [])
  else processStations env cfg.channel_id now cfg.alerts cfg.train_type_notifications
    st cfg.stations

/-- Channel loop of one tick, with error propagation. -/
def processChannels (env : Env) (now : Int) :
    TickState → List ChannelConfig → TickState × Except Unit (List Event)
  | st, [] => (st, .ok [])
  | st, c :: cs =>
    match processChannel env now st c with
    | (st1, .error e) => (st1, .error e)
    | (st1, .ok evs) =>
      match processChannels env now st1 cs with
      | (st2, .error e) => (st2, .error e)
      | (st2, .ok evs2) => (st2, .ok (evs ++ evs2))

/-- One tick of the poll loop fetch_train_data, lines 557-691: evict stale
ledger entries first, then run the channel loop. -/
def fetch_train_data_tick (env : Env) (now : Int) (configs : List ChannelConfig)
    (st : TickState) : TickState × Except Unit (List Event) :=
  let cleaned := clean_announced_trains now st.announced
  processChannels env now { st with announced := cleaned.1 } configs

/-- Order-preserving deduplication of the facility list before it is shown in
the announcement embed, lines 147-148:
`[x for x in facilities if not (x in seen or seen.add(x))]`. -/
def facilities_unique_aux (seen : List String) : List String → List String
  | [] => []
  | x :: xs =>
    if x ∈ seen then facilities_unique_aux seen xs
    else x :: facilities_unique_aux (x :: seen) xs

/-- Facility deduplication starting from an empty seen set. -/
def facilities_unique (facilities : List String) : List String :=
  facilities_unique_aux [] facilities

/-- Display list construction, lines 75-76: keep the long display names of
length greater than one character and sort ascending. -/
def build_stations_list (long_names : List String) : List String :=
  List.mergeSort (long_names.filter (fun n => decide (n.length > 1))) strLe

/-- Helper of splitWords: accumulate the current word in reverse. -/
def splitWordsAux : List Char → List Char → List String
  | [], acc => if acc = [] then [] else [String.mk acc.reverse]
  | c :: cs, acc =>
    if c.isWhitespace then
      if acc = [] then splitWordsAux cs []
      else String.mk acc.reverse :: splitWordsAux cs []
    else splitWordsAux cs (c :: acc)

/-- Word splitting of line 80: `station_name.lower().split()` splits on runs
of whitespace and discards empty pieces. -/
def splitWords (s : String) : List String :=
  splitWordsAux (lowerStr s).data []

/-- Nonempty initial segments of one word, line 82-83:
`word[:i]` for i in 1..len(word). -/
def wordStarts (w : String) : List String :=
  (List.range w.length).map (fun i => String.mk (w.data.take (i + 1)))

/-- Python `setdefault(p, set()).add(name)` on the autocomplete index,
modelled on an association list whose values are duplicate-free lists. -/
def mapAdd : List (String × List String) → String → String → List (String × List String)
  | [], k, v => [(k, [v])]
  | (k2, vs) :: rest, k, v =>
    if k2 = k then (k2, if v ∈ vs then vs else vs ++ [v]) :: rest
    else (k2, vs) :: mapAdd rest k v

/-- Autocomplete index construction, lines 79-84: for every display name,
for every word of its lowercased form, for every initial segment of that
word, add the display name to the set stored under that segment. -/
def build_word_map (stations_list : List String) : List (String × List String) :=
  stations_list.foldl (fun m name =>
    (splitWords name).foldl (fun m w =>
      (wordStarts w).foldl (fun m p => mapAdd m p name) m) m) []

/-- Python `word_prefix_map.get(current_lower, set())` (line 311). -/
def mapGet : List (String × List String) → String → List String
  | [], _ => []
  | (k2, vs) :: rest, k => if k2 = k then vs else mapGet rest k

/-- Substring-scan loop of lines 322-327: append each display name containing
the query, stopping as soon as the limit is reached. -/
def takeMatching (p : String → Bool) : Nat → List String → List String
  | _, [] => []
  | 0, _ :: _ => []
  | k + 1, n :: ns => if p n then n :: takeMatching p k ns else takeMatching p (k + 1) ns

/-- Python substring containment `sub in s` on strings. -/
def containsSubstr (sub s : String) : Bool := decide (sub.data <:+: s.data)

/-- Autocomplete, lines 303-335: lowercase the input; when the index holds a
nonempty set for it, return that set sorted, truncated to 25; otherwise scan
the display list for case-insensitive substring matches, stopping at 25. -/
def station_autocomplete (word_map : List (String × List String))
    (stations_list : List String) (current : String) : List String :=
  let current_lower := lowerStr current
  let found := mapGet word_map current_lower
  if found ≠ [] then (List.mergeSort found strLe).take 25
  else takeMatching (fun name => containsSubstr current_lower (lowerStr name)) 25 stations_list

/-! Concrete sample data, used to instantiate the theorems below on closed
inputs. -/

/-- A departure record as the NS feed would deliver it, without a journeyId. -/
def sampleTrain : Departure :=
  { product := { number := some "123", longCategoryName := some "Intercity", operatorName := some "NS" }
    plannedDateTime := some "2025-01-01T12:00:00+0100"
    journeyId := none
    direction := some "Rotterdam Centraal"
    routeStations := [some "Asd", none] }

/-- The same journey observed on a later poll: identical product fields and
planned time, different transient details. -/
def sampleTrain2 : Departure :=
  { product := { number := some "123", longCategoryName := some "Intercity", operatorName := some "NS" }
    plannedDateTime := some "2025-01-01T12:00:00+0100"
    journeyId := none
    direction := some "Rotterdam Centraal"
    routeStations := [] }

/-- Timestamp parser stub: knows the single timestamp of the sample records. -/
def sampleParse : String → Option Int :=
  fun s => if s = "2025-01-01T12:00:00+0100" then some 100 else none

/-- Empty train-detail body. -/
def infoEmpty : TrainInfo := { type := none, crowd := none, lengteInMeters := none, materieeldelen := [] }

/-- Environment whose enrichment fetch raises a transport error. -/
def envEnrichErr : Env :=
  { parseTime := sampleParse
    fetch := fun _ => .ok (200, [sampleTrain])
    enrich := fun _ => .error ()
    dispatch := fun _ => .ok () }

/-- Environment whose enrichment fetch returns a non-success status and whose
dispatch succeeds. -/
def envEnrich500 : Env :=
  { parseTime := sampleParse
    fetch := fun s => if s = "BAD" then .ok (500, []) else .ok (200, [sampleTrain])
    enrich := fun _ => .ok (500, infoEmpty)
    dispatch := fun _ => .ok () }

/-- Environment whose departures fetch raises a transport error for every
station except "B". -/
def envTransport : Env :=
  { parseTime := sampleParse
    fetch := fun s => if s = "B" then .ok (200, [sampleTrain]) else .error ()
    enrich := fun _ => .ok (500, infoEmpty)
    dispatch := fun _ => .ok () }

/-- Empty process state. -/
def st0 : TickState := { announced := [], train_numbers := [], train_types := [] }

/-! Helper lemmas. -/

theorem window_admits_eq (now departure_time : Int) :
    window_admits now departure_time =
      decide (now - departure_time ≤ 30 ∧ departure_time - now ≤ 15) := by
  unfold window_admits
  split_ifs with h1 h2 <;> simp <;> omega

theorem filter_partition_length {α : Type} (p : α → Bool) (l : List α) :
    (l.filter p).length + (l.filter (fun a => !p a)).length = l.length := by
  induction l with
  | nil => rfl
  | cons a l ih =>
    by_cases h : p a = true <;> simp [List.filter, h] <;> omega

theorem cacheNumber_announced (st : TickState) (n : Option String) :
    (cacheNumber st n).announced = st.announced := by
  unfold cacheNumber
  cases n with
  | none => rfl
  | some s => by_cases h : s ≠ "" <;> simp [h]

theorem emitCandidate_announced (env : Env) (channel_id station : String)
    (alerts : List Alert) (tns : List TypeNotification) (st : TickState)
    (train : Departure) (key train_type crowd : String) (train_length : Int)
    (images facilities : List String) (bakken_count : Nat) :
    (emitCandidate env channel_id station alerts tns st train key train_type crowd
      train_length images facilities bakken_count).1.announced = st.announced := by
  unfold emitCandidate
  cases env.dispatch key <;> rfl

/-- When the dedup key of a candidate is already present in the ledger, the
per-candidate path emits nothing and leaves the ledger unchanged. -/
theorem processCandidate_suppressed (env : Env) (channel_id station : String)
    (now : Int) (alerts : List Alert) (tns : List TypeNotification)
    (st : TickState) (train : Departure)
    (h : containsKey st.announced (channel_journey_id channel_id train) = true) :
    (processCandidate env channel_id station now alerts tns st train).2 = .ok [] ∧
    (processCandidate env channel_id station now alerts tns st train).1.announced
      = st.announced := by
  unfold processCandidate
  have hc := cacheNumber_announced st train.product.number
  cases hp : train.plannedDateTime.bind env.parseTime with
  | none => exact ⟨rfl, hc⟩
  | some t =>
    simp only
    by_cases h1 : now - t > 30
    · simp [h1, hc]
    · by_cases h2 : t - now > 15
      · simp [h1, h2, hc]
      · simp [h1, h2, hc, h]

theorem facilities_unique_aux_mem (l : List String) :
    ∀ (seen : List String) (x : String),
      x ∈ facilities_unique_aux seen l ↔ x ∈ l ∧ x ∉ seen := by
  induction l with
  | nil => simp [facilities_unique_aux]
  | cons a l ih =>
    intro seen x
    by_cases h : a ∈ seen
    · simp only [facilities_unique_aux, if_pos h, ih, List.mem_cons]
      constructor
      · tauto
      · rintro ⟨hx | hx, hns⟩
        · exact absurd (hx ▸ h) hns
        · exact ⟨hx, hns⟩
    · simp only [facilities_unique_aux, if_neg h, List.mem_cons, ih]
      constructor
      · rintro (rfl | ⟨hx, hns⟩)
        · exact ⟨Or.inl rfl, h⟩
        · exact ⟨Or.inr hx, fun hs => hns (Or.inr hs)⟩
      · rintro ⟨rfl | hx, hns⟩
        · exact Or.inl rfl
        · by_cases hxa : x = a
          · exact Or.inl hxa
          · exact Or.inr ⟨hx, by simp [List.mem_cons, hxa, hns]⟩

theorem facilities_unique_aux_sublist (l : List String) :
    ∀ seen : List String, (facilities_unique_aux seen l).Sublist l := by
  induction l with
  | nil => intro seen; simp [facilities_unique_aux]
  | cons a l ih =>
    intro seen
    by_cases h : a ∈ seen
    · simpa [facilities_unique_aux, h] using (ih seen).cons a
    · simpa [facilities_unique_aux, h] using (ih (a :: seen)).cons₂ a

theorem facilities_unique_aux_nodup (l : List String) :
    ∀ seen : List String, (facilities_unique_aux seen l).Nodup := by
  induction l with
  | nil => intro seen; simp [facilities_unique_aux]
  | cons a l ih =>
    intro seen
    by_cases h : a ∈ seen
    · simpa [facilities_unique_aux, h] using ih seen
    · simp only [facilities_unique_aux, if_neg h, List.nodup_cons]
      refine ⟨fun hm => ?_, ih (a :: seen)⟩
      exact ((facilities_unique_aux_mem l (a :: seen) a).1 hm).2 (List.mem_cons_self a seen)

theorem facilities_unique_aux_pairwise (l : List String) :
    ∀ seen : List String,
      List.Pairwise (fun a b => List.indexOf a l < List.indexOf b l)
        (facilities_unique_aux seen l) := by
  induction l with
  | nil => intro seen; simp [facilities_unique_aux]
  | cons x xs ih =>
    intro seen
    by_cases h : x ∈ seen
    · simp only [facilities_unique_aux, if_pos h]
      refine (ih seen).imp_of_mem ?_
      intro a b ha hb hab
      have ha2 := (facilities_unique_aux_mem xs seen a).1 ha
      have hb2 := (facilities_unique_aux_mem xs seen b).1 hb
      have hax : x ≠ a := fun he => ha2.2 (he ▸ h)
      have hbx : x ≠ b := fun he => hb2.2 (he ▸ h)
      rw [List.indexOf_cons_ne _ hax, List.indexOf_cons_ne _ hbx]
      omega
    · simp only [facilities_unique_aux, if_neg h, List.pairwise_cons]
      constructor
      · intro b hb
        have hb2 := (facilities_unique_aux_mem xs (x :: seen) b).1 hb
        have hbx : x ≠ b := fun he => hb2.2 (he ▸ List.mem_cons_self x seen)
        rw [List.indexOf_cons_self, List.indexOf_cons_ne _ hbx]
        omega
      · refine (ih (x :: seen)).imp_of_mem ?_
        intro a b ha hb hab
        have ha2 := (facilities_unique_aux_mem xs (x :: seen) a).1 ha
        have hb2 := (facilities_unique_aux_mem xs (x :: seen) b).1 hb
        have hax : x ≠ a := fun he => ha2.2 (he ▸ List.mem_cons_self x seen)
        have hbx : x ≠ b := fun he => hb2.2 (he ▸ List.mem_cons_self x seen)
        rw [List.indexOf_cons_ne _ hax, List.indexOf_cons_ne _ hbx]
        omega

theorem charListLe_total : ∀ as bs, (charListLe as bs || charListLe bs as) = true
  | [], bs => by simp [charListLe]
  | a :: as, [] => by simp [charListLe]
  | a :: as, b :: bs => by
    simp only [charListLe]
    rcases lt_trichotomy a b with hab | hab | hab
    · simp [hab]
    · subst hab
      simpa [lt_irrefl] using charListLe_total as bs
    · simp [hab, asymm hab]

theorem charListLe_trans : ∀ as bs cs, charListLe as bs = true → charListLe bs cs = true →
    charListLe as cs = true
  | [], _, _, _, _ => rfl
  | a :: as, [], cs, h1, _ => by simp [charListLe] at h1
  | a :: as, b :: bs, [], _, h2 => by simp [charListLe] at h2
  | a :: as, b :: bs, c :: cs, h1, h2 => by
    simp only [charListLe] at h1 h2 ⊢
    rcases lt_trichotomy a b with hab | hab | hab
    · rcases lt_trichotomy b c with hbc | hbc | hbc
      · simp [lt_trans hab hbc]
      · subst hbc
        simp [hab]
      · rw [if_neg (asymm hbc), if_pos hbc] at h2
        simp at h2
    · subst hab
      rw [if_neg (lt_irrefl a), if_neg (lt_irrefl a)] at h1
      rcases lt_trichotomy a c with hac | hac | hac
      · simp [hac]
      · subst hac
        rw [if_neg (lt_irrefl a), if_neg (lt_irrefl a)] at h2 ⊢
        exact charListLe_trans as bs cs h1 h2
      · rw [if_neg (asymm hac), if_pos hac] at h2
        simp at h2
    · rw [if_neg (asymm hab), if_pos hab] at h1
      simp at h1

theorem charListLe_antisymm : ∀ as bs, charListLe as bs = true → charListLe bs as = true →
    as = bs
  | [], [], _, _ => rfl
  | [], b :: bs, _, h2 => by simp [charListLe] at h2
  | a :: as, [], h1, _ => by simp [charListLe] at h1
  | a :: as, b :: bs, h1, h2 => by
    simp only [charListLe] at h1 h2
    rcases lt_trichotomy a b with hab | hab | hab
    · rw [if_neg (asymm hab), if_pos hab] at h2
      simp at h2
    · subst hab
      rw [if_neg (lt_irrefl a), if_neg (lt_irrefl a)] at h1 h2
      rw [charListLe_antisymm as bs h1 h2]
    · rw [if_neg (asymm hab), if_pos hab] at h1
      simp at h1

theorem strLe_trans (a b c : String) (h1 : strLe a b = true) (h2 : strLe b c = true) :
    strLe a c = true :=
  charListLe_trans a.data b.data c.data h1 h2

theorem strLe_total (a b : String) : (strLe a b || strLe b a) = true :=
  charListLe_total a.data b.data

theorem strLe_antisymm (a b : String) (h1 : strLe a b = true) (h2 : strLe b a = true) :
    a = b := by
  obtain ⟨da⟩ := a
  obtain ⟨db⟩ := b
  exact congrArg String.mk (charListLe_antisymm da db h1 h2)

theorem takeMatching_eq (p : String → Bool) : ∀ (k : Nat) (l : List String),
    takeMatching p k l = (l.filter p).take k
  | k, [] => by simp [takeMatching]
  | 0, n :: ns => by simp [takeMatching]
  | k + 1, n :: ns => by
    by_cases h : p n
    · simp [takeMatching, h, takeMatching_eq p k ns]
    · simp [takeMatching, h, takeMatching_eq p (k + 1) ns]

theorem foldl_preserves {α β : Type} (P : β → Prop) (f : β → α → β)
    (hf : ∀ b a, P b → P (f b a)) : ∀ (l : List α) (b : β), P b → P (l.foldl f b) := by
  intro l
  induction l with
  | nil => exact fun b hb => hb
  | cons a l ih => exact fun b hb => ih (f b a) (hf b a hb)

theorem mapAdd_values (m : List (String × List String)) (k v : String)
    (h : ∀ kv ∈ m, kv.2 ≠ []) : ∀ kv ∈ mapAdd m k v, kv.2 ≠ [] := by
  induction m with
  | nil =>
    intro kv hkv
    simp only [mapAdd, List.mem_singleton] at hkv
    subst hkv
    simp
  | cons e rest ih =>
    obtain ⟨k2, vs2⟩ := e
    intro kv hkv
    by_cases hk : k2 = k
    · simp only [mapAdd, if_pos hk, List.mem_cons] at hkv
      rcases hkv with rfl | hkv
      · by_cases hv : v ∈ vs2
        · simpa [hv] using h (k2, vs2) (List.mem_cons_self _ _)
        · simp [hv]
      · exact h kv (List.mem_cons_of_mem _ hkv)
    · simp only [mapAdd, if_neg hk, List.mem_cons] at hkv
      rcases hkv with rfl | hkv
      · exact h (k2, vs2) (List.mem_cons_self _ _)
      · exact ih (fun kv2 h2 => h kv2 (List.mem_cons_of_mem _ h2)) kv hkv

theorem build_word_map_values (l : List String) :
    ∀ kv ∈ build_word_map l, kv.2 ≠ [] := by
  unfold build_word_map
  refine foldl_preserves
    (fun m : List (String × List String) => ∀ kv ∈ m, kv.2 ≠ []) _ ?_ l [] (by simp)
  intro m name hm
  refine foldl_preserves
    (fun m : List (String × List String) => ∀ kv ∈ m, kv.2 ≠ []) _ ?_ (splitWords name) m hm
  intro m2 w hm2
  refine foldl_preserves
    (fun m : List (String × List String) => ∀ kv ∈ m, kv.2 ≠ []) _ ?_ (wordStarts w) m2 hm2
  intro m3 p hm3
  exact mapAdd_values m3 p name hm3

theorem exists_of_mapGet_ne_nil : ∀ (m : List (String × List String)) (k : String),
    mapGet m k ≠ [] → ∃ vs, (k, vs) ∈ m := by
  intro m
  induction m with
  | nil => intro k h; simp [mapGet] at h
  | cons e rest ih =>
    obtain ⟨k2, vs2⟩ := e
    intro k h
    by_cases hk : k2 = k
    · subst hk
      exact ⟨vs2, List.mem_cons_self _ _⟩
    · simp only [mapGet, if_neg hk] at h
      obtain ⟨vs, hvs⟩ := ih k h
      exact ⟨vs, List.mem_cons_of_mem _ hvs⟩

theorem mapGet_ne_nil_of_mem : ∀ (m : List (String × List String)) (k : String)
    (vs : List String), (∀ kv ∈ m, kv.2 ≠ []) → (k, vs) ∈ m → mapGet m k ≠ [] := by
  intro m
  induction m with
  | nil => intro k vs _ hmem; simp at hmem
  | cons e rest ih =>
    obtain ⟨k2, vs2⟩ := e
    intro k vs hval hmem
    by_cases hk : k2 = k
    · simp only [mapGet, if_pos hk]
      exact hval (k2, vs2) (List.mem_cons_self _ _)
    · simp only [mapGet, if_neg hk]
      rcases List.mem_cons.1 hmem with heq | hmem2
      · exact absurd (congrArg Prod.fst heq).symm hk
      · exact ih k vs (fun kv h2 => hval kv (List.mem_cons_of_mem _ h2)) hmem2

theorem build_stations_list_perm (raw raw2 : List String) (h : raw2.Perm raw) :
    build_stations_list raw2 = build_stations_list raw := by
  haveI : IsAntisymm String (fun a b => strLe a b = true) :=
    ⟨fun a b h1 h2 => strLe_antisymm a b h1 h2⟩
  unfold build_stations_list
  exact @List.eq_of_perm_of_sorted String (fun a b => strLe a b = true) _ _ _
    (((List.mergeSort_perm _ strLe).trans (h.filter _)).trans
      (List.mergeSort_perm _ strLe).symm)
    (List.sorted_mergeSort strLe_trans strLe_total _)
    (List.sorted_mergeSort strLe_trans strLe_total _)

theorem processCandidate_parse_none (env : Env) (channel_id station : String)
    (now : Int) (alerts : List Alert) (tns : List TypeNotification)
    (st : TickState) (train : Departure)
    (hp : train.plannedDateTime.bind env.parseTime = none) :
    processCandidate env channel_id station now alerts tns st train =
      (cacheNumber st train.product.number, .ok []) := by
  unfold processCandidate
  rw [hp]

theorem processCandidate_inserts (env : Env) (channel_id station : String)
    (now : Int) (alerts : List Alert) (tns : List TypeNotification)
    (st : TickState) (train : Departure) (t : Int)
    (hp : train.plannedDateTime.bind env.parseTime = some t)
    (h30 : now - t ≤ 30) (h15 : t - now ≤ 15)
    (habs : containsKey st.announced (channel_journey_id channel_id train) = false) :
    containsKey (processCandidate env channel_id station now alerts tns st train).1.announced
      (channel_journey_id channel_id train) = true := by
  have h1 : ¬(now - t > 30) := by omega
  have h2 : ¬(t - now > 15) := by omega
  have h3 : ¬(containsKey (cacheNumber st train.product.number).announced
      (channel_journey_id channel_id train) = true) := by
    rw [cacheNumber_announced, habs]
    simp
  unfold processCandidate
  rw [hp]
  simp only [if_neg h1, if_neg h2, if_neg h3]
  cases henr : env.enrich (displayOpt train.product.number) with
  | error e => simp [henr, containsKey]
  | ok v =>
    obtain ⟨status, info⟩ := v
    by_cases hs : (status == 200) = true
    · by_cases ht : info.type.getD "Unknown" ≠ "" ∧ info.type.getD "Unknown" ≠ "Unknown"
      · simp [henr, hs, ht, emitCandidate_announced, containsKey]
      · simp [henr, hs, ht, emitCandidate_announced, containsKey]
    · simp [henr, hs, emitCandidate_announced, containsKey]

theorem processCandidate_ok (env : Env) (channel_id station : String) (now : Int)
    (alerts : List Alert) (tns : List TypeNotification) (st : TickState)
    (train : Departure)
    (henr : ∀ n, env.enrich n ≠ .error ())
    (hd : ∀ k, env.dispatch k ≠ .error ()) :
    ∃ evs, (processCandidate env channel_id station now alerts tns st train).2 = .ok evs := by
  unfold processCandidate
  cases hp : train.plannedDateTime.bind env.parseTime with
  | none => exact ⟨[], rfl⟩
  | some t =>
    simp only
    by_cases h1 : now - t > 30
    · simp [h1]
    · by_cases h2 : t - now > 15
      · simp [h1, h2]
      · by_cases h3 : containsKey (cacheNumber st train.product.number).announced
            (channel_journey_id channel_id train) = true
        · simp [h1, h2, h3]
        · simp only [if_neg h1, if_neg h2, if_neg h3]
          cases he : env.enrich (displayOpt train.product.number) with
          | error e => cases e; exact absurd he (henr _)
          | ok v =>
            obtain ⟨status, info⟩ := v
            have hemit : ∀ st3 ttype crowd tlen images facilities bakken,
                ∃ evs, (emitCandidate env channel_id station alerts tns st3 train
                  (channel_journey_id channel_id train) ttype crowd tlen images
                  facilities bakken).2 = .ok evs := by
              intro st3 ttype crowd tlen images facilities bakken
              unfold emitCandidate
              cases hdd : env.dispatch (channel_journey_id channel_id train) with
              | error e => cases e; exact absurd hdd (hd _)
              | ok u => simp
            by_cases hs : (status == 200) = true
            · by_cases ht : info.type.getD "Unknown" ≠ "" ∧ info.type.getD "Unknown" ≠ "Unknown"
              · simpa [hs, ht] using hemit _ _ _ _ _ _ _
              · simpa [hs, ht] using hemit _ _ _ _ _ _ _
            · simpa [hs] using hemit _ _ _ _ _ _ _

theorem processDepartures_ok (env : Env) (channel_id station : String) (now : Int)
    (alerts : List Alert) (tns : List TypeNotification)
    (henr : ∀ n, env.enrich n ≠ .error ())
    (hd : ∀ k, env.dispatch k ≠ .error ()) :
    ∀ (ds : List Departure) (st : TickState),
      ∃ evs, (processDepartures env channel_id station now alerts tns st ds).2 = .ok evs := by
  intro ds
  induction ds with
  | nil => exact fun st => ⟨[], rfl⟩
  | cons d ds ih =>
    intro st
    obtain ⟨evs1, h1⟩ := processCandidate_ok env channel_id station now alerts tns st d henr hd
    obtain ⟨st1, r1⟩ : ∃ p, processCandidate env channel_id station now alerts tns st d = p :=
      ⟨_, rfl⟩
    obtain ⟨evs2, h2⟩ := ih st1.1
    unfold processDepartures
    rw [r1]
    rw [r1] at h1
    obtain ⟨s1, r⟩ := st1
    cases r with
    | error e => simp at h1
    | ok evs =>
      simp only
      obtain ⟨p2, hp2⟩ : ∃ p, processDepartures env channel_id station now alerts tns s1 ds = p :=
        ⟨_, rfl⟩
      rw [hp2]
      rw [hp2] at h2
      obtain ⟨s2, r2⟩ := p2
      cases r2 with
      | error e => simp at h2
      | ok evs2b => exact ⟨evs ++ evs2b, rfl⟩

theorem processStations_ok (env : Env) (channel_id : String) (now : Int)
    (alerts : List Alert) (tns : List TypeNotification)
    (hf : ∀ s, env.fetch s ≠ .error ())
    (henr : ∀ n, env.enrich n ≠ .error ())
    (hd : ∀ k, env.dispatch k ≠ .error ()) :
    ∀ (stations : List String) (st : TickState),
      ∃ evs, (processStations env channel_id now alerts tns st stations).2 = .ok evs := by
  intro stations
  induction stations with
  | nil => exact fun st => ⟨[], rfl⟩
  | cons s ss ih =>
    intro st
    have hone : ∃ evs, (processStation env channel_id now alerts tns st s).2 = .ok evs := by
      unfold processStation
      cases hfs : env.fetch s with
      | error e => cases e; exact absurd hfs (hf _)
      | ok v =>
        obtain ⟨status, deps⟩ := v
        by_cases hs : status ≠ 200
        · simp [hs]
        · simp only [if_neg hs]
          exact processDepartures_ok env channel_id s now alerts tns henr hd deps st
    obtain ⟨evs1, h1⟩ := hone
    unfold processStations
    obtain ⟨p1, hp1⟩ : ∃ p, processStation env channel_id now alerts tns st s = p := ⟨_, rfl⟩
    rw [hp1]
    rw [hp1] at h1
    obtain ⟨s1, r1⟩ := p1
    cases r1 with
    | error e => simp at h1
    | ok evs =>
      simp only
      obtain ⟨evs2, h2⟩ := ih s1
      obtain ⟨p2, hp2⟩ : ∃ p, processStations env channel_id now alerts tns s1 ss = p := ⟨_, rfl⟩
      rw [hp2]
      rw [hp2] at h2
      obtain ⟨s2, r2⟩ := p2
      cases r2 with
      | error e => simp at h2
      | ok evs2b => exact ⟨evs ++ evs2b, rfl⟩

theorem processChannels_ok (env : Env) (now : Int)
    (hf : ∀ s, env.fetch s ≠ .error ())
    (henr : ∀ n, env.enrich n ≠ .error ())
    (hd : ∀ k, env.dispatch k ≠ .error ()) :
    ∀ (configs : List ChannelConfig) (st : TickState),
      ∃ evs, (processChannels env now st configs).2 = .ok evs := by
  intro configs
  induction configs with
  | nil => exact fun st => ⟨[], rfl⟩
  | cons c cs ih =>
    intro st
    have hone : ∃ evs, (processChannel env now st c).2 = .ok evs := by
      unfold processChannel
      by_cases h1 : !c.channel_found
      · simp [h1]
      · by_cases h2 : c.stations = []
        · simp [h1, h2]
        · simp only [if_neg h1, if_neg h2]
          exact processStations_ok env c.channel_id now c.alerts c.train_type_notifications
            hf henr hd c.stations st
    obtain ⟨evs1, h1⟩ := hone
    unfold processChannels
    obtain ⟨p1, hp1⟩ : ∃ p, processChannel env now st c = p := ⟨_, rfl⟩
    rw [hp1]
    rw [hp1] at h1
    obtain ⟨s1, r1⟩ := p1
    cases r1 with
    | error e => simp at h1
    | ok evs =>
      simp only
      obtain ⟨evs2, h2⟩ := ih s1
      obtain ⟨p2, hp2⟩ : ∃ p, processChannels env now s1 cs = p := ⟨_, rfl⟩
      rw [hp2]
      rw [hp2] at h2
      obtain ⟨s2, r2⟩ := p2
      cases r2 with
      | error e => simp at h2
      | ok evs2b => exact ⟨evs ++ evs2b, rfl⟩

/-! Claim theorems. -/

/-- C1: the window filter admits a candidate if and only if
now - plannedDeparture is at most 30 seconds and plannedDeparture - now is at
most 15 seconds, with both boundaries inclusive: plannedDeparture equal to
now, now - 30s and now + 15s are admitted, now - 31s and now + 16s are
rejected; and a candidate whose parsed time the filter rejects produces no
event and no ledger change in the poller. -/
theorem window_filter_spec (now departure_time : Int) :
    (window_admits now departure_time = true ↔
      now - departure_time ≤ 30 ∧ departure_time - now ≤ 15) ∧
    window_admits now now = true ∧
    window_admits now (now - 30) = true ∧
    window_admits now (now + 15) = true ∧
    window_admits now (now - 31) = false ∧
    window_admits now (now + 16) = false ∧
    (∀ (env : Env) (channel_id station : String) (alerts : List Alert)
      (tns : List TypeNotification) (st : TickState) (train : Departure) (t : Int),
      train.plannedDateTime.bind env.parseTime = some t →
      window_admits now t = false →
      processCandidate env channel_id station now alerts tns st train =
        (cacheNumber st train.product.number, .ok [])) := by
  refine ⟨?_, ?_, ?_, ?_, ?_, ?_, ?_⟩
  · rw [window_admits_eq]; simp
  · rw [window_admits_eq]; simp
  · rw [window_admits_eq]; simp
  · rw [window_admits_eq]; simp
  · rw [window_admits_eq]; simp
  · rw [window_admits_eq]; simp
  · intro env channel_id station alerts tns st train t hp hw
    rw [window_admits_eq] at hw
    simp only [decide_eq_false_iff_not, not_and, not_le] at hw
    unfold processCandidate
    rw [hp]
    by_cases h1 : now - t > 30
    · simp [h1]
    · have h2 : t - now > 15 := by omega
      simp [h1, h2]

/-- C1 witness: at now = 200 the sample candidate planned at 100 (100 seconds
in the past) is rejected and the poller path yields no event. -/
theorem window_filter_spec_witness :
    window_admits 200 100 = false ∧
    processCandidate envEnrichErr "c1" "AMS" 200 [] [] st0 sampleTrain2 =
      (cacheNumber st0 sampleTrain2.product.number, .ok []) :=
  ⟨by decide,
    (window_filter_spec 200 100).2.2.2.2.2.2 envEnrichErr "c1" "AMS" [] [] st0
      sampleTrain2 100 (by decide) (by decide)⟩

/-- C3: the ledger eviction removes exactly the entries whose stored timestamp
is more than 2 hours old, reports the number of removed entries, and an entry
inserted at time T is still present when evicting at T + 2h - 1s and gone when
evicting at T + 2h + 1s. -/
theorem ledger_eviction_spec (now : Int) (ledger : List (String × AnnEntry)) :
    (∀ e, e ∈ (clean_announced_trains now ledger).1 ↔
        e ∈ ledger ∧ ¬(now - e.2.timestamp > 7200)) ∧
    (clean_announced_trains now ledger).2 =
      (ledger.filter (fun e => decide (now - e.2.timestamp > 7200))).length ∧
    (clean_announced_trains now ledger).2 + (clean_announced_trains now ledger).1.length
      = ledger.length ∧
    (∀ (T d : Int) (k : String),
      containsKey (clean_announced_trains (T + 7200 - 1) [(k, ⟨T, d⟩)]).1 k = true ∧
      containsKey (clean_announced_trains (T + 7200 + 1) [(k, ⟨T, d⟩)]).1 k = false) := by
  refine ⟨?_, rfl, ?_, ?_⟩
  · intro e
    simp [clean_announced_trains, List.mem_filter]
  · exact filter_partition_length _ ledger
  · intro T d k
    constructor
    · have hc : ¬ (T + 7200 - 1 - T > 7200) := by omega
      simp [clean_announced_trains, containsKey, hc]
    · have hc : T + 7200 + 1 - T > 7200 := by omega
      simp [clean_announced_trains, containsKey, hc]

/-- C3 witness: an entry inserted at time 0 is still present when evicting
one second before the 2 hour boundary and absent one second after it. -/
theorem ledger_eviction_spec_witness :
    containsKey (clean_announced_trains (0 + 7200 - 1) [("k", ⟨0, 50⟩)]).1 "k" = true ∧
    containsKey (clean_announced_trains (0 + 7200 + 1) [("k", ⟨0, 50⟩)]).1 "k" = false :=
  ⟨((ledger_eviction_spec 0 []).2.2.2 0 50 "k").1,
   ((ledger_eviction_spec 0 []).2.2.2 0 50 "k").2⟩

/-- C4: the fallback journey key is the concatenation
category:operator:number:plannedDeparture, is used exactly when the feed
supplies no (or an empty) journey identifier, and is determined by those four
fields alone, so re-polling the same journey yields the identical key. -/
theorem journey_key_spec :
    (∀ category operator_name number departure_str : String,
      synth_journey_id category operator_name number departure_str =
        category ++ ":" ++ operator_name ++ ":" ++ number ++ ":" ++ departure_str) ∧
    (∀ train : Departure, train.journeyId.getD "" = "" →
      journey_id_of train =
        synth_journey_id (train.product.longCategoryName.getD "")
          (train.product.operatorName.getD "")
          (displayOpt train.product.number) (displayOpt train.plannedDateTime)) ∧
    (∀ t1 t2 : Departure,
      t1.journeyId.getD "" = "" → t2.journeyId.getD "" = "" →
      t1.product.longCategoryName = t2.product.longCategoryName →
      t1.product.operatorName = t2.product.operatorName →
      t1.product.number = t2.product.number →
      t1.plannedDateTime = t2.plannedDateTime →
      journey_id_of t1 = journey_id_of t2) := by
  refine ⟨fun _ _ _ _ => rfl, ?_, ?_⟩
  · intro train h
    unfold journey_id_of
    simp [h]
  · intro t1 t2 h1 h2 hcat hop hnum hdep
    unfold journey_id_of
    simp [h1, h2, synth_journey_id, hcat, hop, hnum, hdep]

/-- C4 witness: two observations of the same journey with different transient
fields synthesize the identical key. -/
theorem journey_key_spec_witness :
    journey_id_of sampleTrain = journey_id_of sampleTrain2 ∧
    journey_id_of sampleTrain = "Intercity:NS:123:2025-01-01T12:00:00+0100" := by
  refine ⟨journey_key_spec.2.2 sampleTrain sampleTrain2 ?_ ?_ ?_ ?_ ?_ ?_, ?_⟩ <;> decide

/-- C8: the facility list shown in the announcement embed is deduplicated
preserving first-occurrence order: the output contains exactly the elements of
the input, each exactly once, ordered by the position of their first
occurrence in the input, and on the example input
["wifi", "table", "wifi", "quiet"] it yields ["wifi", "table", "quiet"]. -/
theorem facility_dedup_spec (l : List String) :
    (∀ x, x ∈ facilities_unique l ↔ x ∈ l) ∧
    (∀ x, x ∈ l → (facilities_unique l).count x = 1) ∧
    (facilities_unique l).Sublist l ∧
    List.Pairwise (fun a b => List.indexOf a l < List.indexOf b l) (facilities_unique l) ∧
    facilities_unique ["wifi", "table", "wifi", "quiet"] = ["wifi", "table", "quiet"] := by
  refine ⟨?_, ?_, facilities_unique_aux_sublist l [], facilities_unique_aux_pairwise l [], by decide⟩
  · intro x
    simp [facilities_unique, facilities_unique_aux_mem l [] x]
  · intro x hx
    exact List.count_eq_one_of_mem (facilities_unique_aux_nodup l [])
      ((facilities_unique_aux_mem l [] x).2 ⟨hx, List.not_mem_nil x⟩)

/-- C8 witness: on the example input the element "wifi" occurs once in the
deduplicated output. -/
theorem facility_dedup_spec_witness :
    "wifi" ∈ ["wifi", "table", "wifi", "quiet"] ∧
    (facilities_unique ["wifi", "table", "wifi", "quiet"]).count "wifi" = 1 :=
  ⟨by decide, (facility_dedup_spec ["wifi", "table", "wifi", "quiet"]).2.1 "wifi" (by decide)⟩

/-- C2: while the key of a (destination, journey) pair is absent, a claim
inserts it and succeeds; while the key is present, a further claim fails and
leaves the ledger unchanged; and the poller emits no event and performs no
ledger change for a candidate whose key is present, so a ledger entry is
never re-dispatched while present. -/
theorem ledger_claim_idempotent (ledger : List (String × AnnEntry))
    (channel_id journey_id : String) (now dep now2 dep2 : Int)
    (h : containsKey ledger (channel_id ++ ":" ++ journey_id) = false) :
    (try_claim ledger channel_id journey_id now dep).1 = true ∧
    containsKey (try_claim ledger channel_id journey_id now dep).2
      (channel_id ++ ":" ++ journey_id) = true ∧
    (try_claim (try_claim ledger channel_id journey_id now dep).2
      channel_id journey_id now2 dep2).1 = false ∧
    (try_claim (try_claim ledger channel_id journey_id now dep).2
      channel_id journey_id now2 dep2).2 =
      (try_claim ledger channel_id journey_id now dep).2 ∧
    (∀ (env : Env) (station : String) (nowp : Int) (alerts : List Alert)
      (tns : List TypeNotification) (st : TickState) (train : Departure),
      containsKey st.announced (channel_journey_id channel_id train) = true →
      (processCandidate env channel_id station nowp alerts tns st train).2 = .ok [] ∧
      (processCandidate env channel_id station nowp alerts tns st train).1.announced
        = st.announced) := by
  have habs : try_claim ledger channel_id journey_id now dep =
      (true, (channel_id ++ ":" ++ journey_id, ⟨now, dep⟩) :: ledger) := by
    simp [try_claim, h]
  have hins : containsKey (try_claim ledger channel_id journey_id now dep).2
      (channel_id ++ ":" ++ journey_id) = true := by
    rw [habs]
    simp [containsKey]
  have hpres : try_claim (try_claim ledger channel_id journey_id now dep).2
      channel_id journey_id now2 dep2 =
      (false, (try_claim ledger channel_id journey_id now dep).2) := by
    conv in try_claim _ channel_id journey_id now2 dep2 => rw [try_claim]
    simp [hins]
  refine ⟨by rw [habs], hins, by rw [hpres], by rw [hpres],
    fun env station nowp alerts tns st train hk =>
      processCandidate_suppressed env channel_id station nowp alerts tns st train hk⟩

/-- C2 witness: a concrete first claim succeeds and the repeated claim fails. -/
theorem ledger_claim_idempotent_witness :
    (try_claim [] "42" "j1" 100 100).1 = true ∧
    (try_claim (try_claim [] "42" "j1" 100 100).2 "42" "j1" 200 100).1 = false :=
  ⟨(ledger_claim_idempotent [] "42" "j1" 100 100 200 100 (by decide)).1,
   (ledger_claim_idempotent [] "42" "j1" 100 100 200 100 (by decide)).2.2.1⟩

/-- C5: an alert mentions its user exactly when its train number equals the
candidate number and its station equals the polled station up to case; a
type-notification mentions its user exactly when its train type equals the
resolved type up to case; and a user matched by one of each receives at least
two mentions, nothing being deduplicated across the two lists. -/
theorem subscription_matcher_spec (alerts : List Alert) (tns : List TypeNotification)
    (train_type : String) (train_number : Option String) (station u : String) :
    (u ∈ mentionsFor tns alerts train_type train_number station ↔
      (∃ n ∈ tns, upperStr n.train_type = upperStr train_type ∧ n.user_id = u) ∨
      (∃ a ∈ alerts, some a.train_number = train_number ∧
        upperStr a.station = upperStr station ∧ a.user_id = u)) ∧
    (∀ (n : TypeNotification) (a : Alert), n ∈ tns → a ∈ alerts →
      typeNotificationMatches n train_type = true →
      alertMatches a train_number station = true →
      n.user_id = u → a.user_id = u →
      2 ≤ (mentionsFor tns alerts train_type train_number station).count u) := by
  constructor
  · simp only [mentionsFor, List.mem_append, List.mem_map, List.mem_filter,
      typeNotificationMatches, alertMatches, Bool.and_eq_true, beq_iff_eq]
    constructor
    · rintro (⟨n, ⟨hn, hm⟩, hu⟩ | ⟨a, ⟨ha, hm1, hm2⟩, hu⟩)
      · exact Or.inl ⟨n, hn, hm, hu⟩
      · exact Or.inr ⟨a, ha, hm1, hm2, hu⟩
    · rintro (⟨n, hn, hm, hu⟩ | ⟨a, ha, hm1, hm2, hu⟩)
      · exact Or.inl ⟨n, ⟨hn, hm⟩, hu⟩
      · exact Or.inr ⟨a, ⟨ha, hm1, hm2⟩, hu⟩
  · intro n a hn ha hmn hma hun hua
    have h1 : 0 < ((tns.filter (fun n => typeNotificationMatches n train_type)).map
        TypeNotification.user_id).count u :=
      List.count_pos_iff.2 (List.mem_map.2 ⟨n, List.mem_filter.2 ⟨hn, hmn⟩, hun⟩)
    have h2 : 0 < ((alerts.filter (fun a => alertMatches a train_number station)).map
        Alert.user_id).count u :=
      List.count_pos_iff.2 (List.mem_map.2 ⟨a, List.mem_filter.2 ⟨ha, hma⟩, hua⟩)
    unfold mentionsFor
    rw [List.count_append]
    omega

/-- C5 witness: a user subscribed to type "IC" and to train 123 at station
"AMS" is mentioned twice for a matching candidate. -/
theorem subscription_matcher_spec_witness :
    2 ≤ (mentionsFor [⟨"IC", "u1"⟩] [⟨"123", "AMS", "u1"⟩] "ic" (some "123") "ams").count "u1" :=
  (subscription_matcher_spec [⟨"123", "AMS", "u1"⟩] [⟨"IC", "u1"⟩] "ic" (some "123") "ams" "u1").2
    ⟨"IC", "u1"⟩ ⟨"123", "AMS", "u1"⟩ (by decide) (by decide) (by decide) (by decide)
    (by decide) (by decide)

/-- C6 counterexample: when the enrichment fetch raises a transport-level
error (the aiohttp call at line 637 has no surrounding try/except), the
candidate processing ends in the propagated error and no departure
announcement is emitted, so the announcement does not proceed with neutral
defaults on this kind of enrichment fetch failure. -/
theorem enrichment_transport_error_aborts :
    (processCandidate envEnrichErr "c1" "AMS" 100 [] [] st0 sampleTrain).2 =
      Except.error () := rfl

/-- C6 amended: when the enrichment fetch returns a non-success status, the
announcement proceeds with exactly the neutral defaults, type "Unknown",
crowd "Unknown", length 0, no facilities, no image, car count 1; an
enrichment fetch that raises a transport error instead aborts the candidate. -/
theorem enrichment_status_failure_defaults (env : Env) (channel_id station : String)
    (now : Int) (alerts : List Alert) (tns : List TypeNotification)
    (st : TickState) (train : Departure) (t : Int) (status : Nat) (info : TrainInfo)
    (hp : train.plannedDateTime.bind env.parseTime = some t)
    (h30 : now - t ≤ 30) (h15 : t - now ≤ 15)
    (habs : containsKey st.announced (channel_journey_id channel_id train) = false)
    (henr : env.enrich (displayOpt train.product.number) = .ok (status, info))
    (hs : status ≠ 200)
    (hd : env.dispatch (channel_journey_id channel_id train) = .ok ()) :
    (processCandidate env channel_id station now alerts tns st train).2 =
      .ok (Event.departure channel_id station
        { message := "Train to " ++ train.direction.getD "Unknown" ++ " from " ++ station
            ++ " has departed."
          title := "Departure from " ++ station
          station := station
          departure_time := displayOpt train.plannedDateTime
          train_number := train.product.number
          train_type := "Unknown"
          crowd_info := "Unknown"
          train_length := 0
          facilities := []
          bakken_count := 1
          route_stations := train.routeStations.map (fun r => r.getD "Unknown")
          has_image := false
          operator_name := train.product.operatorName.getD "Unknown" } ::
        (mentionsFor tns alerts "Unknown" train.product.number station).map
          (Event.mention channel_id)) := by
  have h1 : ¬(now - t > 30) := by omega
  have h2 : ¬(t - now > 15) := by omega
  have h3 : ¬(containsKey (cacheNumber st train.product.number).announced
      (channel_journey_id channel_id train) = true) := by
    rw [cacheNumber_announced, habs]
    simp
  have hs2 : (status == 200) = false := by simpa using hs
  unfold processCandidate
  rw [hp]
  simp only [if_neg h1, if_neg h2, if_neg h3, henr, hs2]
  unfold emitCandidate
  rw [hd]
  simp

/-- C6 witness: for a concrete candidate whose enrichment returns status 500,
exactly one departure event with the neutral defaults is emitted. -/
theorem enrichment_status_failure_defaults_witness :
    (processCandidate envEnrich500 "c1" "AMS" 100 [] [] st0 sampleTrain).2 =
      .ok [Event.departure "c1" "AMS"
        { message := "Train to Rotterdam Centraal from AMS has departed."
          title := "Departure from AMS"
          station := "AMS"
          departure_time := "2025-01-01T12:00:00+0100"
          train_number := some "123"
          train_type := "Unknown"
          crowd_info := "Unknown"
          train_length := 0
          facilities := []
          bakken_count := 1
          route_stations := ["Asd", "Unknown"]
          has_image := false
          operator_name := "NS" }] :=
  (enrichment_status_failure_defaults envEnrich500 "c1" "AMS" 100 [] [] st0 sampleTrain
    100 500 infoEmpty rfl (by decide) (by decide) rfl rfl (by decide) rfl).trans rfl

/-- C9 counterexample: a transport error raised by the fetch of station "A"
aborts the whole station loop, so the healthy sibling station "B" is not
processed in that tick, while "B" alone would have produced an announcement;
contrary to the claim, a transport-level fetch failure is not isolated to its
own station. -/
theorem station_transport_error_aborts_tick :
    (processStations envTransport "c1" 100 [] [] st0 ["A", "B"]).2 = Except.error () ∧
    containsKey (processStations envTransport "c1" 100 [] [] st0 ["A", "B"]).1.announced
      (channel_journey_id "c1" sampleTrain) = false ∧
    containsKey (processStations envTransport "c1" 100 [] [] st0 ["B"]).1.announced
      (channel_journey_id "c1" sampleTrain) = true :=
  ⟨rfl, rfl, rfl⟩

/-- C9 amended: a station fetch that returns a non-success status and a
candidate with an unparseable timestamp are isolated, the unit of work is
skipped and its siblings still run, and the tick completes whenever no fetch,
enrichment or dispatch raises a transport-level error; a raised transport
error, however, propagates and aborts the remainder of the tick. -/
theorem failure_isolation_spec (env : Env) (now : Int) :
    (∀ (channel_id : String) (alerts : List Alert) (tns : List TypeNotification)
      (st : TickState) (station : String) (rest : List String)
      (status : Nat) (deps : List Departure),
      env.fetch station = .ok (status, deps) → status ≠ 200 →
      processStations env channel_id now alerts tns st (station :: rest) =
        processStations env channel_id now alerts tns st rest) ∧
    (∀ (channel_id station : String) (alerts : List Alert)
      (tns : List TypeNotification) (st : TickState) (train : Departure)
      (ds : List Departure),
      train.plannedDateTime.bind env.parseTime = none →
      processDepartures env channel_id station now alerts tns st (train :: ds) =
        processDepartures env channel_id station now alerts tns
          (cacheNumber st train.product.number) ds) ∧
    (∀ (channel_id : String) (alerts : List Alert) (tns : List TypeNotification)
      (st : TickState) (station : String) (rest : List String),
      env.fetch station = .error () →
      processStations env channel_id now alerts tns st (station :: rest) =
        (st, .error ())) ∧
    ((∀ s, env.fetch s ≠ .error ()) → (∀ n, env.enrich n ≠ .error ()) →
      (∀ k, env.dispatch k ≠ .error ()) →
      ∀ (configs : List ChannelConfig) (st : TickState),
        ∃ evs, (fetch_train_data_tick env now configs st).2 = .ok evs) := by
  refine ⟨?_, ?_, ?_, ?_⟩
  · intro channel_id alerts tns st station rest status deps hfetch hstatus
    have hst : processStation env channel_id now alerts tns st station = (st, .ok []) := by
      unfold processStation
      rw [hfetch]
      simp [hstatus]
    have hstep : processStations env channel_id now alerts tns st (station :: rest) =
        (match processStation env channel_id now alerts tns st station with
         | (st1, .error e) => (st1, .error e)
         | (st1, .ok evs) =>
           match processStations env channel_id now alerts tns st1 rest with
           | (st2, .error e) => (st2, .error e)
           | (st2, .ok evs2) => (st2, .ok (evs ++ evs2))) := rfl
    rw [hstep, hst]
    obtain ⟨p, hp⟩ : ∃ p, processStations env channel_id now alerts tns st rest = p := ⟨_, rfl⟩
    obtain ⟨s2, r2⟩ := p
    cases r2 <;> rw [hp] <;> simp [hp]
  · intro channel_id station alerts tns st train ds hp
    have hc := processCandidate_parse_none env channel_id station now alerts tns st train hp
    have hstep : processDepartures env channel_id station now alerts tns st (train :: ds) =
        (match processCandidate env channel_id station now alerts tns st train with
         | (st1, .error e) => (st1, .error e)
         | (st1, .ok evs) =>
           match processDepartures env channel_id station now alerts tns st1 ds with
           | (st2, .error e) => (st2, .error e)
           | (st2, .ok evs2) => (st2, .ok (evs ++ evs2))) := rfl
    rw [hstep, hc]
    obtain ⟨p, hp2⟩ : ∃ p, processDepartures env channel_id station now alerts tns
        (cacheNumber st train.product.number) ds = p := ⟨_, rfl⟩
    obtain ⟨s2, r2⟩ := p
    cases r2 <;> rw [hp2] <;> simp [hp2]
  · intro channel_id alerts tns st station rest hfetch
    have hst : processStation env channel_id now alerts tns st station = (st, .error ()) := by
      unfold processStation
      rw [hfetch]
    have hstep : processStations env channel_id now alerts tns st (station :: rest) =
        (match processStation env channel_id now alerts tns st station with
         | (st1, .error e) => (st1, .error e)
         | (st1, .ok evs) =>
           match processStations env channel_id now alerts tns st1 rest with
           | (st2, .error e) => (st2, .error e)
           | (st2, .ok evs2) => (st2, .ok (evs ++ evs2))) := rfl
    rw [hstep, hst]
  · intro hf henr hd configs st
    exact processChannels_ok env now hf henr hd configs _

/-- C9 witness: with an environment whose fetches never raise, a tick over a
channel with one failing-status station and one healthy station completes
without error. -/
theorem failure_isolation_spec_witness :
    ∃ evs, (fetch_train_data_tick envEnrich500 100
      [⟨"c1", true, ["BAD", "AMS"], [], []⟩] st0).2 = .ok evs :=
  (failure_isolation_spec envEnrich500 100).2.2.2
    (fun s => by by_cases hs : s = "BAD" <;> simp [envEnrich500, hs])
    (fun n => by simp [envEnrich500])
    (fun k => by simp [envEnrich500])
    [⟨"c1", true, ["BAD", "AMS"], [], []⟩] st0

/-- C10: for a candidate that passes the window filter and the dedup check,
the ledger entry is present in the poller state no matter how the enrichment
fetch and the dispatch end (in particular when either raises), and while that
entry is present any later processing of the same candidate for the same
destination emits nothing and changes nothing, so the journey is not
re-announced within the TTL even when no departure event was ever emitted. -/
theorem ledger_insert_precedes_dispatch (env : Env) (channel_id station : String)
    (now : Int) (alerts : List Alert) (tns : List TypeNotification)
    (st : TickState) (train : Departure) (t : Int)
    (hp : train.plannedDateTime.bind env.parseTime = some t)
    (h30 : now - t ≤ 30) (h15 : t - now ≤ 15)
    (habs : containsKey st.announced (channel_journey_id channel_id train) = false) :
    containsKey (processCandidate env channel_id station now alerts tns st train).1.announced
      (channel_journey_id channel_id train) = true ∧
    (∀ now2 : Int,
      (processCandidate env channel_id station now2 alerts tns
        (processCandidate env channel_id station now alerts tns st train).1 train).2 = .ok [] ∧
      (processCandidate env channel_id station now2 alerts tns
        (processCandidate env channel_id station now alerts tns st train).1 train).1.announced =
        (processCandidate env channel_id station now alerts tns st train).1.announced) := by
  have hins := processCandidate_inserts env channel_id station now alerts tns st train t
    hp h30 h15 habs
  exact ⟨hins, fun now2 => processCandidate_suppressed env channel_id station now2 alerts tns
    (processCandidate env channel_id station now alerts tns st train).1 train hins⟩

/-- C7: autocomplete first lowercases the query; when the lowercased query is
a key of the word index it returns the first 25 entries of that key's set
sorted lexicographically; otherwise it returns the first 25 display-list
names containing the query case-insensitively, in display-list order; and
the result computed from a station directory depends only on the multiset of
names, not on their load order. -/
theorem autocomplete_spec (raw : List String) (q : String) :
    ((∃ vs, (lowerStr q, vs) ∈ build_word_map (build_stations_list raw)) →
      station_autocomplete (build_word_map (build_stations_list raw))
          (build_stations_list raw) q =
        (List.mergeSort (mapGet (build_word_map (build_stations_list raw)) (lowerStr q))
          strLe).take 25 ∧
      List.Pairwise (fun a b => strLe a b = true)
        (station_autocomplete (build_word_map (build_stations_list raw))
          (build_stations_list raw) q)) ∧
    ((∀ vs, (lowerStr q, vs) ∉ build_word_map (build_stations_list raw)) →
      station_autocomplete (build_word_map (build_stations_list raw))
          (build_stations_list raw) q =
        ((build_stations_list raw).filter
          (fun n => containsSubstr (lowerStr q) (lowerStr n))).take 25) ∧
    (∀ raw2, raw2.Perm raw →
      station_autocomplete (build_word_map (build_stations_list raw2))
          (build_stations_list raw2) q =
        station_autocomplete (build_word_map (build_stations_list raw))
          (build_stations_list raw) q) := by
  refine ⟨?_, ?_, ?_⟩
  · rintro ⟨vs, hmem⟩
    have hne : mapGet (build_word_map (build_stations_list raw)) (lowerStr q) ≠ [] :=
      mapGet_ne_nil_of_mem _ _ vs (build_word_map_values _) hmem
    have heq : station_autocomplete (build_word_map (build_stations_list raw))
        (build_stations_list raw) q =
        (List.mergeSort (mapGet (build_word_map (build_stations_list raw)) (lowerStr q))
          strLe).take 25 := by
      unfold station_autocomplete
      rw [if_pos hne]
    refine ⟨heq, ?_⟩
    rw [heq]
    exact List.Pairwise.sublist (List.take_sublist 25 _)
      (List.sorted_mergeSort strLe_trans strLe_total _)
  · intro h
    have hnil : mapGet (build_word_map (build_stations_list raw)) (lowerStr q) = [] := by
      by_contra hne
      obtain ⟨vs, hvs⟩ := exists_of_mapGet_ne_nil _ _ hne
      exact h vs hvs
    unfold station_autocomplete
    rw [if_neg (by simp [hnil])]
    exact takeMatching_eq _ 25 _
  · intro raw2 hperm
    rw [build_stations_list_perm raw raw2 hperm]

unseal List.merge List.mergeSort in
/-- C7 witness: the query "utr" against the two Utrecht stations, loaded in
reverse alphabetical order, hits the word index and returns both names in
sorted order. -/
theorem autocomplete_spec_witness :
    station_autocomplete
      (build_word_map (build_stations_list ["Utrecht Overvecht", "Utrecht Centraal"]))
      (build_stations_list ["Utrecht Overvecht", "Utrecht Centraal"]) "utr" =
      ["Utrecht Centraal", "Utrecht Overvecht"] :=
  (((autocomplete_spec ["Utrecht Overvecht", "Utrecht Centraal"] "utr").1
    ⟨["Utrecht Centraal", "Utrecht Overvecht"], by decide⟩).1).trans (by decide)

/-- C10 witness: with an enrichment fetch that raises, the concrete candidate
is recorded in the ledger and a repeat observation 15 seconds later emits
nothing. -/
theorem ledger_insert_precedes_dispatch_witness :
    containsKey (processCandidate envEnrichErr "c1" "AMS" 100 [] [] st0
      sampleTrain).1.announced (channel_journey_id "c1" sampleTrain) = true ∧
    (processCandidate envEnrichErr "c1" "AMS" 115 [] []
      (processCandidate envEnrichErr "c1" "AMS" 100 [] [] st0 sampleTrain).1
      sampleTrain).2 = .ok [] :=
  ⟨(ledger_insert_precedes_dispatch envEnrichErr "c1" "AMS" 100 [] [] st0 sampleTrain 100
      rfl (by decide) (by decide) rfl).1,
   ((ledger_insert_precedes_dispatch envEnrichErr "c1" "AMS" 100 [] [] st0 sampleTrain 100
      rfl (by decide) (by decide) rfl).2 115).1⟩

end TrainBot
